import Mathlib

/-!
Verification development for the Moodioos bot's scheduled-message store,
its delivery worker, and its voice-session manager.

The message store (`src/services/scheduled-messages.ts`) round-trips a list
of `ScheduledMessage` records through a flat JSON file; every operation is
read-entire-file, mutate in memory, write-entire-file.  We model the store
state as the decoded list of records and each operation as a pure function
on that list; the JSON-decode step of the read path is modelled separately
(`ParsedFile` / `readAll`) for the corrupt-file behaviour.

The worker (`src/scheduler`) ticks on a fixed interval, queries due
messages and delivers them one at a time; the external deliver step
(user fetch + DM send) is an oracle parameter, its outcome an
`Except String Unit` whose error carries the stringified error text.

The voice manager (`src/services/voice.ts`, later revision, which is the
canonical one) keeps a map from guild id to `{connection, player}`; we
model it as an association list threaded through each operation, with the
external transport handle carrying its destroyed state and failure flags
for injected stop/destroy errors.
-/

/-- Status of a scheduled message: the literal union
`'pending' | 'sent' | 'failed'` of the source. -/
inductive MsgStatus where
  | pending : MsgStatus
  | sent : MsgStatus
  | failed : MsgStatus
deriving DecidableEq, Repr

/-- Embeds the `ScheduledMessage` record type of
`src/services/scheduled-messages.ts` (lines 6-16).  `sendAt` and
`createdAt` are ISO-8601 UTC strings kept as strings, because the source
compares them with the JavaScript string order.  `creatorId` and
`lastError` are nullable, modelled as `Option`. -/
structure ScheduledMessage where
  id : String
  targetUserId : String
  content : String
  sendAt : String
  creatorId : Option String
  status : MsgStatus
  retries : Nat
  lastError : Option String
  createdAt : String
deriving DecidableEq, Repr

/-- Lexicographic order on character lists by code point: the order
JavaScript uses for `a <= b` on strings (the source compares ISO
timestamp strings this way). -/
def charListLeb : List Char → List Char → Bool
  | [], _ => true
  | _ :: _, [] => false
  | a :: as, b :: bs =>
    if a.toNat < b.toNat then true
    else if b.toNat < a.toNat then false
    else charListLeb as bs

/-- Embeds the JavaScript string comparison `a <= b` used by
`getPendingMessages` on ISO timestamp strings. -/
def strLeb (a b : String) : Bool := charListLeb a.data b.data

/-- Possible outcomes of `JSON.parse` on the backing file's raw text,
as discriminated by `readAll` (lines 33-43): the parse throws (`ill`),
it yields a non-array value (`nonArray`), or it yields an array of
records (`array`). -/
inductive ParsedFile where
  | ill : ParsedFile
  | nonArray : ParsedFile
  | array : List ScheduledMessage → ParsedFile

/-- Embeds `readAll` (lines 33-43): a parse failure is caught and
returns `[]`; a parsed non-array value returns `[]`
(`Array.isArray(parsed) ? parsed : []`); a parsed array is returned
as is. -/
def readAll : ParsedFile → List ScheduledMessage
  | ParsedFile.ill => []
  | ParsedFile.nonArray => []
  | ParsedFile.array items => items

/-- Embeds `getAll` (lines 109-111): returns `readAll()`. -/
def getAll (f : ParsedFile) : List ScheduledMessage := readAll f

/-- Embeds the filter of `getPendingMessages` (lines 73-77) at the level
of the decoded store state:
`items.filter((m) => m.status === 'pending' && m.sendAt <= now)`. -/
def getPendingMessages (items : List ScheduledMessage) (now : String) :
    List ScheduledMessage :=
  items.filter (fun m => decide (m.status = MsgStatus.pending) && strLeb m.sendAt now)

/-- Embeds `getPendingMessages` including the read of the backing file. -/
def getPendingMessagesFromFile (f : ParsedFile) (now : String) :
    List ScheduledMessage :=
  getPendingMessages (readAll f) now

/-- Embeds `addScheduledMessage` (lines 50-71).  The generated
`crypto.randomUUID()` id and the `new Date().toISOString()` creation
timestamp are external inputs, passed as `freshId` and `createdAtNow`.
Returns the created record and the persisted collection
(`items.push(msg); writeAll(items)`). -/
def addScheduledMessage (items : List ScheduledMessage)
    (freshId createdAtNow targetUserId content sendAt : String)
    (creatorId : Option String) : ScheduledMessage × List ScheduledMessage :=
  let msg : ScheduledMessage :=
    { id := freshId
      targetUserId := targetUserId
      content := content
      sendAt := sendAt
      creatorId := creatorId
      status := MsgStatus.pending
      retries := 0
      lastError := none
      createdAt := createdAtNow }
  (msg, items ++ [msg])

/-- Embeds `markSent` (lines 79-91): find the first record with the
given id (`findIndex`), set its `status` to `'sent'` in place, persist;
when the id is absent the collection is left unchanged (early return,
no write). -/
def markSent : List ScheduledMessage → String → List ScheduledMessage
  | [], _ => []
  | m :: rest, id =>
    if m.id = id then { m with status := MsgStatus.sent } :: rest
    else m :: markSent rest id

/-- Embeds `markFailed` (lines 93-107): find the first record with the
given id, set `status := 'failed'`, `retries := retries + 1`
(`(entry.retries ?? 0) + 1`; `retries` is a number here, so the `?? 0`
guard is the identity), `lastError := errorMsg ?? null`, persist; when
the id is absent the collection is left unchanged. -/
def markFailed : List ScheduledMessage → String → Option String → List ScheduledMessage
  | [], _, _ => []
  | m :: rest, id, e =>
    if m.id = id then
      { m with status := MsgStatus.failed, retries := m.retries + 1, lastError := e } :: rest
    else m :: markFailed rest id e

/-- Reads the first record with the given id, as `findIndex` followed by
the indexed access does in the source mutators. -/
def findMsg : List ScheduledMessage → String → Option ScheduledMessage
  | [], _ => none
  | m :: rest, id => if m.id = id then some m else findMsg rest id

/-- Status of the first record with the given id, if any. -/
def statusOf (items : List ScheduledMessage) (id : String) : Option MsgStatus :=
  (findMsg items id).map (fun m => m.status)

/-- Retry counter of the first record with the given id, if any. -/
def retriesOf (items : List ScheduledMessage) (id : String) : Option Nat :=
  (findMsg items id).map (fun m => m.retries)

/-- Last recorded error of the first record with the given id, if any. -/
def lastErrorOf (items : List ScheduledMessage) (id : String) : Option (Option String) :=
  (findMsg items id).map (fun m => m.lastError)

/-- One mutating operation of the store's public surface: `schedule`
(with its externally generated fresh id and creation timestamp),
`markSent`, or `markFailed`. -/
inductive StoreOp where
  | schedule (freshId createdAtNow targetUserId content sendAt : String)
      (creatorId : Option String) : StoreOp
  | markSentOp (id : String) : StoreOp
  | markFailedOp (id : String) (e : Option String) : StoreOp

/-- Applies one store operation to the decoded store state. -/
def applyOp (items : List ScheduledMessage) : StoreOp → List ScheduledMessage
  | StoreOp.schedule freshId createdAtNow targetUserId content sendAt creatorId =>
      (addScheduledMessage items freshId createdAtNow targetUserId content sendAt creatorId).2
  | StoreOp.markSentOp id => markSent items id
  | StoreOp.markFailedOp id e => markFailed items id e

/-- Embeds `processMessage` of the worker (`src/scheduler`, lines 39-55).
The user fetch plus DM send is the external `deliver` oracle; on success
the worker calls `markSent(msg.id)`, on any thrown error it catches,
stringifies the error and calls `markFailed(msg.id, e)`. -/
def processMessage (deliver : ScheduledMessage → Except String Unit)
    (items : List ScheduledMessage) (msg : ScheduledMessage) :
    List ScheduledMessage :=
  match deliver msg with
  | Except.ok _ => markSent items msg.id
  | Except.error e => markFailed items msg.id (some e)

/-- Embeds one tick of `startScheduler` (lines 19-36): query
`getPendingMessages(nowIso)` once, then process each due message
strictly sequentially, threading the store state through the successive
`markSent` and `markFailed` writes. -/
def schedulerTick (deliver : ScheduledMessage → Except String Unit)
    (now : String) (items : List ScheduledMessage) : List ScheduledMessage :=
  (getPendingMessages items now).foldl (processMessage deliver) items

/-- Classifies the channel type as the guard of `joinVoiceChannelSafe`
does: guild voice, guild stage voice, or anything else. -/
inductive ChannelKind where
  | guildVoice : ChannelKind
  | guildStageVoice : ChannelKind
  | other : ChannelKind
deriving DecidableEq, Repr

/-- Capability set returned by `permissionsFor(botMember)`, checked for
the Connect and Speak flags. -/
structure PermissionSet where
  connect : Bool
  speak : Bool
deriving DecidableEq, Repr

/-- Transport connection handle, per the external interface the voice
manager relies on: a handle with a destroyed state and a `destroy()`
teardown method.  `cid` distinguishes handles, `destroyed` is the
destroyed state, and `destroyThrows` injects a teardown failure. -/
structure VoiceConnection where
  cid : Nat
  destroyed : Bool
  destroyThrows : Bool
deriving DecidableEq, Repr

/-- Audio player handle created by `createAudioPlayer()`; `stopThrows`
injects a failure of its `stop()` call. -/
structure AudioPlayer where
  pid : Nat
  stopThrows : Bool
deriving DecidableEq, Repr

/-- Embeds the `GuildVoiceState` record of `src/services/voice.ts`. -/
structure GuildVoiceState where
  connection : VoiceConnection
  player : Option AudioPlayer
deriving DecidableEq, Repr

/-- The module-level `connections` map from guild id to session,
modelled as an association list in insertion order (a JavaScript `Map`
with string keys). -/
abbrev VoiceRegistry : Type := List (String × GuildVoiceState)

/-- Embeds `connections.get(guildId)`. -/
def regGet : VoiceRegistry → String → Option GuildVoiceState
  | [], _ => none
  | (g, s) :: rest, gid => if g = gid then some s else regGet rest gid

/-- Embeds `connections.set(guildId, st)`: replaces the entry for an
existing key in place, otherwise appends. -/
def regSet : VoiceRegistry → String → GuildVoiceState → VoiceRegistry
  | [], gid, st => [(gid, st)]
  | (g, s) :: rest, gid, st =>
    if g = gid then (gid, st) :: rest else (g, s) :: regSet rest gid st

/-- Embeds `connections.delete(guildId)`: removes the entry for the key
(keys of a `Map` are unique, so removing the first occurrence). -/
def regDelete : VoiceRegistry → String → VoiceRegistry
  | [], _ => []
  | (g, s) :: rest, gid =>
    if g = gid then rest else (g, s) :: regDelete rest gid

/-- Models the JavaScript truthiness of the expression
`existing.connection.destroy` as it appears in the later revision's
guards (`if (existing && !existing.connection.destroy)` in join, and
`!!s && !s.connection.destroy` in `isConnectedInGuild`): `destroy` is a
method defined on every connection handle, so its boolean coercion is
`true` for every handle. -/
def destroyMethodTruthy (_c : VoiceConnection) : Bool := true

/-- Embeds `isConnectedInGuild` of the canonical (later) revision
(lines 323-326): `const s = connections.get(guildId); return !!s &&
!s.connection.destroy;`. -/
def isConnectedInGuild (reg : VoiceRegistry) (gid : String) : Bool :=
  match regGet reg gid with
  | none => false
  | some s => !(destroyMethodTruthy s.connection)

/-- Embeds `isConnectedInGuild` of the earlier revision (lines 156-159),
which reads the destroyed state: `!!s && !s.connection.destroyed`. -/
def isConnectedInGuildEarlier (reg : VoiceRegistry) (gid : String) : Bool :=
  match regGet reg gid with
  | none => false
  | some s => !s.connection.destroyed

/-- External inputs of one `joinVoiceChannelSafe` call: the channel and
guild data read from the argument, the permission set the platform
reports for the bot member, the fresh transport connection
`joinVoiceChannel` would open, the fresh player `createAudioPlayer`
would create, and the outcome of the `entersState(connection, Ready,
15_000)` readiness handshake (its error carries the message text). -/
structure JoinEnv where
  channelKind : ChannelKind
  guildId : String
  botMemberResolvable : Bool
  perms : Option PermissionSet
  adapterPresent : Bool
  newConnection : VoiceConnection
  newPlayer : AudioPlayer
  readyResult : Except String Unit

/-- Lexicographic character-list membership test used to model
JavaScript `String.prototype.includes`. -/
def charPrefixEqb : List Char → List Char → Bool
  | [], _ => true
  | _ :: _, [] => false
  | a :: as, b :: bs => if a = b then charPrefixEqb as bs else false

/-- Substring test over character lists, modelling `hay.includes(needle)`. -/
def charInfixb (needle : List Char) : List Char → Bool
  | [] => charPrefixEqb needle []
  | c :: rest => charPrefixEqb needle (c :: rest) || charInfixb needle rest

/-- Models `hay.includes(needle)` on strings. -/
def strIncludes (hay needle : String) : Bool := charInfixb needle.data hay.data

/-- Embeds the special-case test of the handshake failure path:
`msg.includes('@snazzah/davey') || msg.toLowerCase().includes('dave
protocol')`. -/
def daveHint (msg : String) : Bool :=
  strIncludes msg "@snazzah/davey" || strIncludes msg.toLower "dave protocol"

/-- Error message thrown on the DAVE special case of a handshake failure. -/
def daveErrorText : String :=
  "Failed to establish voice connection: DAVE protocol unavailable. Install @snazzah/davey (pnpm add @snazzah/davey) and restart the bot"

/-- Embeds the tail of `joinVoiceChannelSafe` after the reuse guard
(lines 212-256): the adapter check, the transport open, the readiness
handshake with best-effort destroy of the half-open connection on
failure, and on success the player creation plus
`connections.set(guildId, { connection, player })`.  The result pairs
the thrown-or-returned outcome with the registry as left by the call. -/
def joinFresh (env : JoinEnv) (reg : VoiceRegistry) :
    Except String VoiceConnection × VoiceRegistry :=
  if env.adapterPresent = false then
    (Except.error "Guild does not expose voiceAdapterCreator (unable to join voice)", reg)
  else
    match env.readyResult with
    | Except.ok _ =>
        (Except.ok env.newConnection,
         regSet reg env.guildId
           { connection := env.newConnection, player := some env.newPlayer })
    | Except.error msg =>
        if daveHint msg then (Except.error daveErrorText, reg)
        else (Except.error ("Failed to establish voice connection (timeout): " ++ msg), reg)

/-- Embeds `joinVoiceChannelSafe` of the canonical (later) revision
(lines 186-257): channel-type guard, bot-member guard, Connect/Speak
permission guard, then the reuse guard
`if (existing && !existing.connection.destroy) return
existing.connection;`, then the fresh-join tail.  Every early throw
leaves the registry as it was at that point. -/
def joinVoiceChannelSafe (env : JoinEnv) (reg : VoiceRegistry) :
    Except String VoiceConnection × VoiceRegistry :=
  if env.channelKind ≠ ChannelKind.guildVoice ∧
      env.channelKind ≠ ChannelKind.guildStageVoice then
    (Except.error "Target channel is not a guild voice channel (voice or stage)", reg)
  else if env.botMemberResolvable = false then
    (Except.error "Unable to resolve bot member in guild", reg)
  else if (match env.perms with
           | none => false
           | some p => p.connect && p.speak) = false then
    (Except.error "Missing Connect/Speak permissions for this channel", reg)
  else
    match regGet reg env.guildId with
    | some existing =>
        if !(destroyMethodTruthy existing.connection) then
          (Except.ok existing.connection, reg)
        else joinFresh env reg
    | none => joinFresh env reg

/-- Models a call that either returns or throws, driven by the injected
failure flag of the handle it is called on. -/
def tryCall (throws : Bool) : Except Unit Unit :=
  if throws then Except.error () else Except.ok ()

/-- Models a `try { call } catch (e) { console.error(...) }` block: the
error is swallowed and logged, so the block itself always completes. -/
def caughtAndLogged (_r : Except Unit Unit) : Except Unit Unit := Except.ok ()

/-- Models `state.player.stop()` with its injected failure flag. -/
def playerStop (p : AudioPlayer) : Except Unit Unit := tryCall p.stopThrows

/-- Models `state.connection.destroy()` with its injected failure flag. -/
def connectionDestroy (c : VoiceConnection) : Except Unit Unit :=
  tryCall c.destroyThrows

/-- Embeds `leaveVoiceInGuild` (lines 332-363): absent session returns
`false` and changes nothing; otherwise the player stop and the
connection destroy each run inside their own catch-and-log block, the
outer catch would return `false` were an error to escape them, the
`finally` block always deletes the registry entry, and the call returns
`true`. -/
def leaveVoiceInGuild (reg : VoiceRegistry) (gid : String) :
    Bool × VoiceRegistry :=
  match regGet reg gid with
  | none => (false, reg)
  | some st =>
    let stopStep : Except Unit Unit :=
      match st.player with
      | some p => caughtAndLogged (playerStop p)
      | none => Except.ok ()
    let destroyStep : Except Unit Unit := caughtAndLogged (connectionDestroy st.connection)
    let body : Except Unit Unit := stopStep.bind (fun _ => destroyStep)
    let regAfter : VoiceRegistry := regDelete reg gid
    match body with
    | Except.ok _ => (true, regAfter)
    | Except.error _ => (false, regAfter)

/-- States whether a mutating operation targets only a record that is
currently pending (or no record at all): the discipline the worker
follows, since it only marks messages it just read back as due. -/
def opTargetsPending (items : List ScheduledMessage) : StoreOp → Prop
  | StoreOp.schedule _ _ _ _ _ _ => True
  | StoreOp.markSentOp i =>
      statusOf items i = none ∨ statusOf items i = some MsgStatus.pending
  | StoreOp.markFailedOp i _ =>
      statusOf items i = none ∨ statusOf items i = some MsgStatus.pending

/-- Concrete pending record due at the earlier boundary instant. -/
def dueRecA : ScheduledMessage :=
  { id := "a"
    targetUserId := "u1"
    content := "hello"
    sendAt := "2025-06-01T12:00:00.000Z"
    creatorId := none
    status := MsgStatus.pending
    retries := 0
    lastError := none
    createdAt := "2025-05-01T00:00:00.000Z" }

/-- Concrete pending record due one second after `dueRecA`. -/
def dueRecB : ScheduledMessage :=
  { dueRecA with id := "b", sendAt := "2025-06-01T12:00:01.000Z" }

/-- Concrete record used for the double `markFailed` scenario. -/
def failRec : ScheduledMessage :=
  { dueRecA with id := "f", retries := 0 }

/-- Concrete record used in witness instantiations of the frame and
bookkeeping theorems. -/
def otherRec : ScheduledMessage :=
  { dueRecA with id := "o", content := "bystander" }

/-- Concrete record used as the frame-theorem target. -/
def frameRec : ScheduledMessage := { dueRecA with id := "w" }

/-- Concrete records for the worker-isolation scenario. -/
def tickRec1 : ScheduledMessage := { dueRecA with id := "t1" }

/-- Second concrete record for the worker-isolation scenario. -/
def tickRec2 : ScheduledMessage := { dueRecA with id := "t2" }

/-- Concrete delivery oracle failing exactly on `tickRec1`. -/
def tickDeliver : ScheduledMessage → Except String Unit :=
  fun m => if m.id = "t1" then Except.error "DM rejected" else Except.ok ()

/-- Store reached from empty by one `schedule` call. -/
def traceStep0 : List ScheduledMessage :=
  applyOp []
    (StoreOp.schedule "m" "2025-05-01T00:00:00.000Z" "u9" "msg"
      "2025-06-01T00:00:00.000Z" none)

/-- Store reached from `traceStep0` by `markFailed("m", "boom")`. -/
def traceStep1 : List ScheduledMessage :=
  applyOp traceStep0 (StoreOp.markFailedOp "m" (some "boom"))

/-- Store reached from `traceStep1` by `markSent("m")`. -/
def traceStep2 : List ScheduledMessage :=
  applyOp traceStep1 (StoreOp.markSentOp "m")

/-- Live, never-destroyed connection handle registered before a second
join call. -/
def liveConn : VoiceConnection := { cid := 1, destroyed := false, destroyThrows := false }

/-- The fresh connection the transport layer would open on a new join. -/
def freshConn : VoiceConnection := { cid := 2, destroyed := false, destroyThrows := false }

/-- The fresh player a successful join would create. -/
def freshPlayer : AudioPlayer := { pid := 1, stopThrows := false }

/-- Registry holding one live, non-destroyed session for guild g1. -/
def reuseReg : VoiceRegistry := [("g1", { connection := liveConn, player := none })]

/-- Join call environment in which every precondition holds and the
readiness handshake succeeds, against guild g1. -/
def reuseEnv : JoinEnv :=
  { channelKind := ChannelKind.guildVoice
    guildId := "g1"
    botMemberResolvable := true
    perms := some { connect := true, speak := true }
    adapterPresent := true
    newConnection := freshConn
    newPlayer := freshPlayer
    readyResult := Except.ok () }

/-- Registry holding one freshly joined, never-destroyed session for
guild g2. -/
def liveReg : VoiceRegistry :=
  [("g2", { connection := { cid := 5, destroyed := false, destroyThrows := false }, player := none })]

/-- Registry holding one session whose player stop and connection
destroy calls are both made to throw (failure injection). -/
def throwingReg : VoiceRegistry :=
  [("g3",
    { connection := { cid := 7, destroyed := false, destroyThrows := true }
      player := some { pid := 2, stopThrows := true } })]

/-- Join call environment in which the bot lacks the Speak capability. -/
def noSpeakEnv : JoinEnv :=
  { reuseEnv with perms := some { connect := true, speak := false } }

/-- Environment of the first of two successive join calls for guild g1:
identical to `reuseEnv` except that the transport opens `liveConn`. -/
def firstJoinEnv : JoinEnv := { reuseEnv with newConnection := liveConn }

theorem findMsg_markSent_self (items : List ScheduledMessage) (i : String) :
    findMsg (markSent items i) i =
      (findMsg items i).map (fun m => { m with status := MsgStatus.sent }) := by
  induction items with
  | nil => rfl
  | cons m rest ih =>
    by_cases h : m.id = i <;> simp [markSent, findMsg, h, ih]

theorem findMsg_markSent_ne (items : List ScheduledMessage) {i j : String}
    (h : j ≠ i) : findMsg (markSent items i) j = findMsg items j := by
  induction items with
  | nil => rfl
  | cons m rest ih =>
    by_cases hm : m.id = i
    · have hmj : m.id ≠ j := fun hj => h (hj ▸ hm ▸ rfl)
      simp [markSent, findMsg, hm, hmj, h, Ne.symm h]
    · by_cases hj : m.id = j <;> simp [markSent, findMsg, hm, hj, ih, h, Ne.symm h]

theorem findMsg_markFailed_self (items : List ScheduledMessage) (i : String)
    (e : Option String) :
    findMsg (markFailed items i e) i =
      (findMsg items i).map
        (fun m =>
          { m with
            status := MsgStatus.failed
            retries := m.retries + 1
            lastError := e }) := by
  induction items with
  | nil => rfl
  | cons m rest ih =>
    by_cases h : m.id = i <;> simp [markFailed, findMsg, h, ih]

theorem findMsg_markFailed_ne (items : List ScheduledMessage) {i j : String}
    (e : Option String) (h : j ≠ i) :
    findMsg (markFailed items i e) j = findMsg items j := by
  induction items with
  | nil => rfl
  | cons m rest ih =>
    by_cases hm : m.id = i
    · have hmj : m.id ≠ j := fun hj => h (hj ▸ hm ▸ rfl)
      simp [markFailed, findMsg, hm, hmj, h, Ne.symm h]
    · by_cases hj : m.id = j <;> simp [markFailed, findMsg, hm, hj, ih, h, Ne.symm h]

theorem findMsg_append_some (items more : List ScheduledMessage)
    {i : String} {r : ScheduledMessage} (h : findMsg items i = some r) :
    findMsg (items ++ more) i = some r := by
  induction items with
  | nil => simp [findMsg] at h
  | cons m rest ih =>
    by_cases hm : m.id = i
    · simp [findMsg, hm] at h ⊢; exact h
    · simp [findMsg, hm] at h ⊢; exact ih h

/-- C6: for every store state and every asOf timestamp, the due query
returns exactly the records with status pending and sendAt at or before
asOf, preserving insertion order (the result is a sublist of the
store), and on the two-record boundary example the query at T returns
only the first record while the query at T plus one second returns
both. -/
theorem pending_query_characterization :
    (∀ (items : List ScheduledMessage) (now : String),
        List.Sublist (getPendingMessages items now) items ∧
        ∀ m, m ∈ getPendingMessages items now ↔
          m ∈ items ∧ m.status = MsgStatus.pending ∧ strLeb m.sendAt now = true) ∧
    getPendingMessages [dueRecA, dueRecB] "2025-06-01T12:00:00.000Z" = [dueRecA] ∧
    getPendingMessages [dueRecA, dueRecB] "2025-06-01T12:00:01.000Z" =
      [dueRecA, dueRecB] := by
  refine ⟨fun items now => ⟨List.filter_sublist items, fun m => ?_⟩, by decide, by decide⟩
  simp [getPendingMessages, List.mem_filter, and_assoc]

/-- C6 witness: the characterization instantiated on the concrete
two-record store at the earlier boundary instant. -/
theorem pending_query_characterization_witness :
    List.Sublist (getPendingMessages [dueRecA, dueRecB] "2025-06-01T12:00:00.000Z")
      [dueRecA, dueRecB] ∧
    (dueRecA ∈ getPendingMessages [dueRecA, dueRecB] "2025-06-01T12:00:00.000Z" ↔
      dueRecA ∈ [dueRecA, dueRecB] ∧ dueRecA.status = MsgStatus.pending ∧
        strLeb dueRecA.sendAt "2025-06-01T12:00:00.000Z" = true) :=
  ⟨(pending_query_characterization.1 [dueRecA, dueRecB] "2025-06-01T12:00:00.000Z").1,
   (pending_query_characterization.1 [dueRecA, dueRecB] "2025-06-01T12:00:00.000Z").2 dueRecA⟩

/-- C9: when the backing file's contents do not decode as JSON (and
likewise when they decode to a non-array value), both read-path
operations treat the store as empty and return an empty list, without
any error escaping. -/
theorem corrupt_file_reads_as_empty :
    getAll ParsedFile.ill = [] ∧
    (∀ now, getPendingMessagesFromFile ParsedFile.ill now = []) ∧
    getAll ParsedFile.nonArray = [] ∧
    (∀ now, getPendingMessagesFromFile ParsedFile.nonArray now = []) :=
  ⟨rfl, fun _ => rfl, rfl, fun _ => rfl⟩

/-- C8: a markFailed call on a record present in the store sets its
status to failed, increments its retries by exactly one, and overwrites
lastError with the supplied error; two consecutive markFailed calls
with errors e1 then e2 on the same fresh record leave it with retries
2, lastError e2, status failed. -/
theorem markFailed_bookkeeping :
    (∀ (items : List ScheduledMessage) (i : String) (e : Option String)
        (r : ScheduledMessage),
        findMsg items i = some r →
        findMsg (markFailed items i e) i =
          some { r with
                  status := MsgStatus.failed
                  retries := r.retries + 1
                  lastError := e }) ∧
    findMsg (markFailed (markFailed [failRec, otherRec] "f" (some "e1")) "f" (some "e2")) "f" =
      some { failRec with
              status := MsgStatus.failed
              retries := 2
              lastError := some "e2" } := by
  constructor
  · intro items i e r h
    rw [findMsg_markFailed_self, h]
    rfl
  · decide

/-- C8 witness: the single-call characterization instantiated on a
concrete one-record store. -/
theorem markFailed_bookkeeping_witness :
    findMsg (markFailed [otherRec] "o" (some "boom")) "o" =
      some { otherRec with
              status := MsgStatus.failed
              retries := otherRec.retries + 1
              lastError := some "boom" } :=
  markFailed_bookkeeping.1 [otherRec] "o" (some "boom") otherRec (by decide)

/-- C10: markSent and markFailed touch only the record bearing the
requested id; every record before and after it is kept exactly, in the
same relative order, and the target record keeps every field other than
status (respectively status, retries, lastError). -/
theorem mark_operations_frame :
    ∀ (pre post : List ScheduledMessage) (r : ScheduledMessage) (i : String)
      (e : Option String),
      (∀ x ∈ pre, x.id ≠ i) → r.id = i →
      markSent (pre ++ r :: post) i = pre ++ { r with status := MsgStatus.sent } :: post ∧
      markFailed (pre ++ r :: post) i e =
        pre ++ { r with
                  status := MsgStatus.failed
                  retries := r.retries + 1
                  lastError := e } :: post := by
  intro pre post r i e
  induction pre with
  | nil => intro _ hr; simp [markSent, markFailed, hr]
  | cons x rest ih =>
    intro hpre hr
    have hx : x.id ≠ i := hpre x (by simp)
    have hrest : ∀ y ∈ rest, y.id ≠ i := fun y hy => hpre y (by simp [hy])
    obtain ⟨ih1, ih2⟩ := ih hrest hr
    simp [markSent, markFailed, hx, ih1, ih2]

/-- C10 witness: the frame property instantiated on a concrete
three-record store with one bystander record on each side. -/
theorem mark_operations_frame_witness :
    markSent [otherRec, frameRec, dueRecB] "w" =
      [otherRec, { frameRec with status := MsgStatus.sent }, dueRecB] ∧
    markFailed [otherRec, frameRec, dueRecB] "w" (some "x") =
      [otherRec,
       { frameRec with
          status := MsgStatus.failed
          retries := frameRec.retries + 1
          lastError := some "x" },
       dueRecB] := by
  have h := mark_operations_frame [otherRec] [dueRecB] frameRec "w" (some "x")
    (by decide) (by decide)
  exact ⟨h.1, h.2⟩

theorem findMsg_schedule_some (items : List ScheduledMessage)
    (fid cAt tgt cont sAt : String) (cr : Option String)
    {i : String} {r : ScheduledMessage} (h : findMsg items i = some r) :
    findMsg (applyOp items (StoreOp.schedule fid cAt tgt cont sAt cr)) i = some r := by
  simp only [applyOp, addScheduledMessage]
  exact findMsg_append_some items _ h

/-- C5 counterexample: the store operations are unguarded, so the
transition failed to sent is reachable: starting from the empty store,
schedule a message, markFailed it, then markSent it; the record goes
from status failed to status sent, contradicting the claim that such a
transition never occurs across sequences of store operations. -/
theorem status_failed_to_sent_reachable :
    statusOf traceStep1 "m" = some MsgStatus.failed ∧
    statusOf traceStep2 "m" = some MsgStatus.sent ∧
    traceStep2 = applyOp traceStep1 (StoreOp.markSentOp "m") :=
  ⟨by decide, by decide, rfl⟩

/-- C5 (amended): across every sequence of store operations, a record's
retries counter never decreases and a record never returns to pending;
markSent and markFailed do not guard on the current status, so a
non-pending record can still be re-marked, but whenever an operation
only targets a record that is currently pending (or absent) — the
discipline the worker follows — every status change is pending to sent
or pending to failed.  Stated per operation application; a sequence of
operations is a composition of such applications. -/
theorem status_transitions_amended :
    ∀ (items : List ScheduledMessage) (op : StoreOp) (i : String),
      (∀ n, retriesOf items i = some n →
         ∃ k, retriesOf (applyOp items op) i = some k ∧ n ≤ k) ∧
      (∀ s, statusOf items i = some s → s ≠ MsgStatus.pending →
         statusOf (applyOp items op) i ≠ some MsgStatus.pending) ∧
      (opTargetsPending items op →
        ∀ s t, statusOf items i = some s → statusOf (applyOp items op) i = some t →
          s ≠ t → s = MsgStatus.pending ∧ (t = MsgStatus.sent ∨ t = MsgStatus.failed)) := by
  intro items op i
  cases op with
  | schedule fid cAt tgt cont sAt cr =>
    refine ⟨?_, ?_, ?_⟩
    · intro n hn
      rcases hf : findMsg items i with _ | r
      · simp [retriesOf, hf] at hn
      · refine ⟨n, ?_, le_refl n⟩
        rw [retriesOf, findMsg_schedule_some items fid cAt tgt cont sAt cr hf]
        rw [retriesOf, hf] at hn
        simpa using hn
    · intro s hs hsp
      rcases hf : findMsg items i with _ | r
      · simp [statusOf, hf] at hs
      · rw [statusOf, findMsg_schedule_some items fid cAt tgt cont sAt cr hf]
        rw [statusOf, hf] at hs
        simp only [Option.map_some'] at hs ⊢
        simp [hs, hsp]
    · intro _ s t hs ht hne
      rcases hf : findMsg items i with _ | r
      · simp [statusOf, hf] at hs
      · rw [statusOf, findMsg_schedule_some items fid cAt tgt cont sAt cr hf] at ht
        rw [statusOf, hf] at hs
        simp only [Option.map_some', Option.some_inj] at hs ht
        exact absurd (hs.symm.trans ht) hne
  | markSentOp j =>
    by_cases hij : i = j
    · subst hij
      refine ⟨?_, ?_, ?_⟩
      · intro n hn
        rcases hf : findMsg items i with _ | r
        · simp [retriesOf, hf] at hn
        · refine ⟨n, ?_, le_refl n⟩
          rw [retriesOf, hf] at hn
          simp only [Option.map_some', Option.some_inj] at hn
          simp only [applyOp, retriesOf, findMsg_markSent_self, hf,
            Option.map_some', Option.some_inj]
          exact hn
      · intro s hs _
        rcases hf : findMsg items i with _ | r
        · simp [statusOf, hf] at hs
        · simp [applyOp, statusOf, findMsg_markSent_self, hf]
      · intro hguard s t hs ht hne
        have hsp : s = MsgStatus.pending := by
          rcases hguard with hg | hg
          · rw [hs] at hg; cases hg
          · rw [hs] at hg; exact Option.some_inj.mp hg
        rcases hf : findMsg items i with _ | r
        · simp [statusOf, hf] at hs
        · have hsent : statusOf (applyOp items (StoreOp.markSentOp i)) i =
              some MsgStatus.sent := by
            simp [applyOp, statusOf, findMsg_markSent_self, hf]
          rw [hsent] at ht
          exact ⟨hsp, Or.inl (Option.some_inj.mp ht.symm)⟩
    · have hij2 : i ≠ j := hij
      have hunch : findMsg (markSent items j) i = findMsg items i :=
        findMsg_markSent_ne items hij2
      refine ⟨?_, ?_, ?_⟩
      · intro n hn
        refine ⟨n, ?_, le_refl n⟩
        rw [retriesOf] at hn ⊢
        simpa [applyOp, hunch] using hn
      · intro s hs hsp
        rw [statusOf] at hs
        simp only [applyOp, statusOf, hunch, hs, Option.some_inj]
        simpa using hsp
      · intro _ s t hs ht hne
        rw [statusOf] at hs
        simp only [applyOp, statusOf, hunch, hs, Option.some_inj] at ht
        exact absurd ht hne
  | markFailedOp j e =>
    by_cases hij : i = j
    · subst hij
      refine ⟨?_, ?_, ?_⟩
      · intro n hn
        rcases hf : findMsg items i with _ | r
        · simp [retriesOf, hf] at hn
        · refine ⟨n + 1, ?_, Nat.le_succ n⟩
          rw [retriesOf, hf] at hn
          simp only [Option.map_some', Option.some_inj] at hn
          simp only [applyOp, retriesOf, findMsg_markFailed_self, hf,
            Option.map_some', Option.some_inj]
          simp [hn]
      · intro s hs _
        rcases hf : findMsg items i with _ | r
        · simp [statusOf, hf] at hs
        · simp [applyOp, statusOf, findMsg_markFailed_self, hf]
      · intro hguard s t hs ht hne
        have hsp : s = MsgStatus.pending := by
          rcases hguard with hg | hg
          · rw [hs] at hg; cases hg
          · rw [hs] at hg; exact Option.some_inj.mp hg
        rcases hf : findMsg items i with _ | r
        · simp [statusOf, hf] at hs
        · have hfail : statusOf (applyOp items (StoreOp.markFailedOp i e)) i =
              some MsgStatus.failed := by
            simp [applyOp, statusOf, findMsg_markFailed_self, hf]
          rw [hfail] at ht
          exact ⟨hsp, Or.inr (Option.some_inj.mp ht.symm)⟩
    · have hij2 : i ≠ j := hij
      have hunch : findMsg (markFailed items j e) i = findMsg items i :=
        findMsg_markFailed_ne items e hij2
      refine ⟨?_, ?_, ?_⟩
      · intro n hn
        refine ⟨n, ?_, le_refl n⟩
        rw [retriesOf] at hn ⊢
        simpa [applyOp, hunch] using hn
      · intro s hs hsp
        rw [statusOf] at hs
        simp only [applyOp, statusOf, hunch, hs, Option.some_inj]
        simpa using hsp
      · intro _ s t hs ht hne
        rw [statusOf] at hs
        simp only [applyOp, statusOf, hunch, hs, Option.some_inj] at ht
        exact absurd ht hne

/-- C5 witness: the amended theorem instantiated on a concrete trace:
one markFailed on the failed record cannot lower the retries counter,
and a markSent applied to a pending record changes its status from
pending to sent. -/
theorem status_transitions_amended_witness :
    (∃ k, retriesOf (applyOp traceStep1 (StoreOp.markFailedOp "m" (some "b2"))) "m" =
        some k ∧ 1 ≤ k) ∧
    (MsgStatus.pending = MsgStatus.pending ∧
      (MsgStatus.sent = MsgStatus.sent ∨ MsgStatus.sent = MsgStatus.failed)) :=
  ⟨(status_transitions_amended traceStep1 (StoreOp.markFailedOp "m" (some "b2")) "m").1
      1 (by decide),
   (status_transitions_amended traceStep0 (StoreOp.markSentOp "m") "m").2.2
      (Or.inr (by decide)) MsgStatus.pending MsgStatus.sent (by decide) (by decide)
      (by decide)⟩

/-- C3: in one worker tick over a store holding two due messages with
distinct ids, when delivery of the first throws with message e and
delivery of the second succeeds, the tick still attempts the second:
afterwards the first record is failed with retries incremented by one
(so retries 1 from a fresh record) and lastError e, and the second
record is sent — the first failure does not abort the second delivery. -/
theorem scheduler_tick_isolates_failures :
    ∀ (deliver : ScheduledMessage → Except String Unit) (now : String)
      (m1 m2 : ScheduledMessage) (e : String),
      m1.id ≠ m2.id →
      m1.status = MsgStatus.pending → m2.status = MsgStatus.pending →
      strLeb m1.sendAt now = true → strLeb m2.sendAt now = true →
      deliver m1 = Except.error e → deliver m2 = Except.ok () →
      schedulerTick deliver now [m1, m2] =
        [{ m1 with
            status := MsgStatus.failed
            retries := m1.retries + 1
            lastError := some e },
         { m2 with status := MsgStatus.sent }] := by
  intro deliver now m1 m2 e hne h1s h2s h1d h2d hd1 hd2
  have hpend : getPendingMessages [m1, m2] now = [m1, m2] := by
    simp [getPendingMessages, h1s, h2s, h1d, h2d]
  have step1 : processMessage deliver [m1, m2] m1 =
      [{ m1 with
          status := MsgStatus.failed
          retries := m1.retries + 1
          lastError := some e }, m2] := by
    simp [processMessage, hd1, markFailed]
  have step2 : processMessage deliver
      [{ m1 with
          status := MsgStatus.failed
          retries := m1.retries + 1
          lastError := some e }, m2] m2 =
      [{ m1 with
          status := MsgStatus.failed
          retries := m1.retries + 1
          lastError := some e },
       { m2 with status := MsgStatus.sent }] := by
    simp [processMessage, hd2, markSent, hne]
  rw [schedulerTick, hpend]
  simp only [List.foldl]
  rw [step1, step2]

/-- C3 witness: the isolation theorem instantiated on two concrete due
records and the concrete oracle that rejects exactly the first. -/
theorem scheduler_tick_isolates_failures_witness :
    schedulerTick tickDeliver "2025-06-01T12:00:00.000Z" [tickRec1, tickRec2] =
      [{ tickRec1 with
          status := MsgStatus.failed
          retries := tickRec1.retries + 1
          lastError := some "DM rejected" },
       { tickRec2 with status := MsgStatus.sent }] :=
  scheduler_tick_isolates_failures tickDeliver "2025-06-01T12:00:00.000Z"
    tickRec1 tickRec2 "DM rejected" (by decide) (by decide) (by decide)
    (by decide) (by decide) rfl rfl

theorem regGet_not_mem {reg : VoiceRegistry} {gid : String}
    (h : gid ∉ reg.map Prod.fst) : regGet reg gid = none := by
  induction reg with
  | nil => rfl
  | cons p rest ih =>
    obtain ⟨g, s⟩ := p
    simp only [List.map_cons, List.mem_cons, not_or] at h
    have hg : g ≠ gid := fun e => h.1 e.symm
    simp [regGet, hg, ih h.2]

theorem regGet_regDelete_self {reg : VoiceRegistry} {gid : String}
    (h : (reg.map Prod.fst).Nodup) : regGet (regDelete reg gid) gid = none := by
  induction reg with
  | nil => rfl
  | cons p rest ih =>
    obtain ⟨g, s⟩ := p
    simp only [List.map_cons, List.nodup_cons] at h
    by_cases hg : g = gid
    · subst hg
      simpa [regDelete] using regGet_not_mem h.1
    · simp [regDelete, regGet, hg, ih h.2]

theorem regGet_regSet_self (reg : VoiceRegistry) (gid : String)
    (st : GuildVoiceState) : regGet (regSet reg gid st) gid = some st := by
  induction reg with
  | nil => simp [regSet, regGet]
  | cons p rest ih =>
    obtain ⟨g, s⟩ := p
    by_cases hg : g = gid
    · simp [regSet, regGet, hg]
    · simp [regSet, regGet, hg, ih]

theorem joinFresh_cases (env : JoinEnv) (reg : VoiceRegistry) :
    (∃ e, joinFresh env reg = (Except.error e, reg)) ∨
    joinFresh env reg =
      (Except.ok env.newConnection,
       regSet reg env.guildId
         { connection := env.newConnection, player := some env.newPlayer }) := by
  by_cases ha : env.adapterPresent = false
  · exact Or.inl ⟨"Guild does not expose voiceAdapterCreator (unable to join voice)",
      by simp [joinFresh, ha]⟩
  · rcases hr : env.readyResult with msg | u
    · by_cases hd : daveHint msg
      · exact Or.inl ⟨daveErrorText, by simp [joinFresh, ha, hr, hd]⟩
      · exact Or.inl ⟨"Failed to establish voice connection (timeout): " ++ msg,
          by simp [joinFresh, ha, hr, hd]⟩
    · exact Or.inr (by simp [joinFresh, ha, hr])

theorem join_result_cases (env : JoinEnv) (reg : VoiceRegistry) :
    (∃ e, joinVoiceChannelSafe env reg = (Except.error e, reg)) ∨
    joinVoiceChannelSafe env reg =
      (Except.ok env.newConnection,
       regSet reg env.guildId
         { connection := env.newConnection, player := some env.newPlayer }) := by
  by_cases h1 : env.channelKind ≠ ChannelKind.guildVoice ∧
      env.channelKind ≠ ChannelKind.guildStageVoice
  · exact Or.inl ⟨"Target channel is not a guild voice channel (voice or stage)",
      by simp [joinVoiceChannelSafe, h1]⟩
  · by_cases h2 : env.botMemberResolvable = false
    · exact Or.inl ⟨"Unable to resolve bot member in guild",
        by simp [joinVoiceChannelSafe, h1, h2]⟩
    · by_cases h3 : (match env.perms with
                     | none => false
                     | some p => p.connect && p.speak) = false
      · exact Or.inl ⟨"Missing Connect/Speak permissions for this channel",
          by simp [joinVoiceChannelSafe, h1, h2, h3]⟩
      · rcases hg : regGet reg env.guildId with _ | ex
        · rcases joinFresh_cases env reg with ⟨e, he⟩ | hok
          · exact Or.inl ⟨e, by simp [joinVoiceChannelSafe, h1, h2, h3, hg, he]⟩
          · exact Or.inr (by simp [joinVoiceChannelSafe, h1, h2, h3, hg, hok])
        · rcases joinFresh_cases env reg with ⟨e, he⟩ | hok
          · exact Or.inl ⟨e,
              by simp [joinVoiceChannelSafe, destroyMethodTruthy, h1, h2, h3, hg, he]⟩
          · exact Or.inr
              (by simp [joinVoiceChannelSafe, destroyMethodTruthy, h1, h2, h3, hg, hok])

/-- C4: leave on a guild with a registered session returns true and
deletes the registry entry whatever the injected stop and destroy
failure flags of the session's player and connection are (the entry
removal sits in the finally block), so looking the guild up afterwards
yields nothing and isActive is false; leave on a guild with no
registered session returns false and changes nothing. -/
theorem leave_always_removes_registry_entry :
    ∀ (reg : VoiceRegistry) (gid : String),
      (regGet reg gid = none → leaveVoiceInGuild reg gid = (false, reg)) ∧
      (∀ st, regGet reg gid = some st → (reg.map Prod.fst).Nodup →
        (leaveVoiceInGuild reg gid).1 = true ∧
        (leaveVoiceInGuild reg gid).2 = regDelete reg gid ∧
        regGet (leaveVoiceInGuild reg gid).2 gid = none ∧
        isConnectedInGuild (leaveVoiceInGuild reg gid).2 gid = false) := by
  intro reg gid
  constructor
  · intro h
    simp [leaveVoiceInGuild, h]
  · intro st h hnd
    have hlv : leaveVoiceInGuild reg gid = (true, regDelete reg gid) := by
      rcases hp : st.player with _ | p <;>
        simp [leaveVoiceInGuild, h, hp, caughtAndLogged, Except.bind]
    refine ⟨by rw [hlv], by rw [hlv], ?_, ?_⟩
    · rw [hlv]
      exact regGet_regDelete_self hnd
    · rw [hlv]
      simp [isConnectedInGuild, regGet_regDelete_self hnd]

/-- C4 witness: the cleanup theorem instantiated on a registry whose
single session has both its player stop and its connection destroy made
to throw; the call still returns true and the entry is gone. -/
theorem leave_always_removes_registry_entry_witness :
    (leaveVoiceInGuild throwingReg "g3").1 = true ∧
    regGet (leaveVoiceInGuild throwingReg "g3").2 "g3" = none ∧
    leaveVoiceInGuild [] "g3" = (false, []) := by
  have h := (leave_always_removes_registry_entry throwingReg "g3").2
    { connection := { cid := 7, destroyed := false, destroyThrows := true }
      player := some { pid := 2, stopThrows := true } } (by decide) (by decide)
  exact ⟨h.1, h.2.2.1, (leave_always_removes_registry_entry [] "g3").1 rfl⟩

/-- C7: a join call that fails leaves the registry exactly as it was;
each enumerated precondition violation produces its descriptive error
(non-voice channel, unresolvable bot member, missing Connect or Speak
permission), a readiness handshake failure produces an error as well,
and the only way the registry changes is a successful join, which then
holds the freshly opened connection and fresh player under the guild
id. -/
theorem join_failure_registers_nothing :
    ∀ (env : JoinEnv) (reg : VoiceRegistry),
      (∀ e, (joinVoiceChannelSafe env reg).1 = Except.error e →
        (joinVoiceChannelSafe env reg).2 = reg) ∧
      ((joinVoiceChannelSafe env reg).2 ≠ reg →
        (joinVoiceChannelSafe env reg).1 = Except.ok env.newConnection ∧
        regGet (joinVoiceChannelSafe env reg).2 env.guildId =
          some { connection := env.newConnection, player := some env.newPlayer }) ∧
      (env.channelKind = ChannelKind.other →
        joinVoiceChannelSafe env reg =
          (Except.error "Target channel is not a guild voice channel (voice or stage)", reg)) ∧
      ((env.channelKind = ChannelKind.guildVoice ∨
          env.channelKind = ChannelKind.guildStageVoice) →
        env.botMemberResolvable = false →
        joinVoiceChannelSafe env reg =
          (Except.error "Unable to resolve bot member in guild", reg)) ∧
      ((env.channelKind = ChannelKind.guildVoice ∨
          env.channelKind = ChannelKind.guildStageVoice) →
        env.botMemberResolvable = true →
        (env.perms = none ∨
          ∃ p, env.perms = some p ∧ (p.connect = false ∨ p.speak = false)) →
        joinVoiceChannelSafe env reg =
          (Except.error "Missing Connect/Speak permissions for this channel", reg)) ∧
      ((env.channelKind = ChannelKind.guildVoice ∨
          env.channelKind = ChannelKind.guildStageVoice) →
        env.botMemberResolvable = true →
        (∃ p, env.perms = some p ∧ p.connect = true ∧ p.speak = true) →
        env.adapterPresent = true →
        ∀ msg, env.readyResult = Except.error msg →
        ∃ e, joinVoiceChannelSafe env reg = (Except.error e, reg)) := by
  intro env reg
  refine ⟨?_, ?_, ?_, ?_, ?_, ?_⟩
  · intro e he
    rcases join_result_cases env reg with ⟨x, hx⟩ | hok
    · rw [hx]
    · rw [hok] at he
      cases he
  · intro hch
    rcases join_result_cases env reg with ⟨x, hx⟩ | hok
    · rw [hx] at hch
      cases hch rfl
    · rw [hok]
      exact ⟨rfl, regGet_regSet_self reg env.guildId _⟩
  · intro hck
    have h1 : env.channelKind ≠ ChannelKind.guildVoice ∧
        env.channelKind ≠ ChannelKind.guildStageVoice := by
      constructor <;> (rw [hck]; intro hcontra; cases hcontra)
    simp [joinVoiceChannelSafe, h1]
  · intro hck hbm
    have h1 : ¬(env.channelKind ≠ ChannelKind.guildVoice ∧
        env.channelKind ≠ ChannelKind.guildStageVoice) := by
      rcases hck with h | h <;> simp [h]
    simp [joinVoiceChannelSafe, h1, hbm]
  · intro hck hbm hperm
    have h1 : ¬(env.channelKind ≠ ChannelKind.guildVoice ∧
        env.channelKind ≠ ChannelKind.guildStageVoice) := by
      rcases hck with h | h <;> simp [h]
    have h3 : (match env.perms with
               | none => false
               | some p => p.connect && p.speak) = false := by
      rcases hperm with hp | ⟨p, hp, hpc | hps⟩ <;> simp [hp]
      · simp [hpc]
      · simp [hps]
    simp [joinVoiceChannelSafe, h1, hbm, h3]
  · intro hck hbm hperm hadapter msg hmsg
    have h1 : ¬(env.channelKind ≠ ChannelKind.guildVoice ∧
        env.channelKind ≠ ChannelKind.guildStageVoice) := by
      rcases hck with h | h <;> simp [h]
    obtain ⟨p, hp, hpc, hps⟩ := hperm
    have h3 : ¬((match env.perms with
                 | none => false
                 | some p => p.connect && p.speak) = false) := by
      simp [hp, hpc, hps]
    have hfr : ∃ e, joinFresh env reg = (Except.error e, reg) := by
      by_cases hd : daveHint msg
      · exact ⟨daveErrorText, by simp [joinFresh, hadapter, hmsg, hd]⟩
      · exact ⟨"Failed to establish voice connection (timeout): " ++ msg,
          by simp [joinFresh, hadapter, hmsg, hd]⟩
    obtain ⟨e, he⟩ := hfr
    refine ⟨e, ?_⟩
    rcases hg : regGet reg env.guildId with _ | ex
    · simp [joinVoiceChannelSafe, h1, hbm, h3, hg, he]
    · simp [joinVoiceChannelSafe, destroyMethodTruthy, h1, hbm, h3, hg, he]

/-- C7 witness: joining with the Speak permission absent fails with the
permission error against the empty registry, registering nothing. -/
theorem join_failure_registers_nothing_witness :
    joinVoiceChannelSafe noSpeakEnv [] =
      (Except.error "Missing Connect/Speak permissions for this channel", []) :=
  (join_failure_registers_nothing noSpeakEnv []).2.2.2.2.1
    (Or.inl rfl) rfl
    (Or.inr ⟨{ connect := true, speak := false }, rfl, Or.inr rfl⟩)

/-- C1 (code bug): two successive join calls for guild g1, the second
while a live, never-destroyed session holding liveConn is registered,
do not return the same handle: the reuse guard of the later revision
negates the always-present destroy method instead of reading the
destroyed state, so it never fires; the second call opens and registers
the fresh connection freshConn and returns it, a different handle from
liveConn. -/
theorem join_reuse_broken_in_code :
    (joinVoiceChannelSafe firstJoinEnv []).1 = Except.ok liveConn ∧
    (joinVoiceChannelSafe firstJoinEnv []).2 =
      [("g1", { connection := liveConn, player := some freshPlayer })] ∧
    isConnectedInGuildEarlier (joinVoiceChannelSafe firstJoinEnv []).2 "g1" = true ∧
    (joinVoiceChannelSafe reuseEnv (joinVoiceChannelSafe firstJoinEnv []).2).1 =
      Except.ok freshConn ∧
    (joinVoiceChannelSafe reuseEnv (joinVoiceChannelSafe firstJoinEnv []).2).2 =
      [("g1", { connection := freshConn, player := some freshPlayer })] ∧
    freshConn ≠ liveConn :=
  ⟨rfl, rfl, rfl, rfl, rfl, by decide⟩

/-- C2 (code bug): the later revision's isConnectedInGuild returns
false for every registry and guild, because it negates the truthiness
of the always-present destroy method instead of reading the destroyed
state; in particular it returns false on a registry holding a freshly
joined, never-destroyed session, where the earlier revision's check of
the destroyed state returns true. -/
theorem isConnected_false_on_live_session :
    (∀ (reg : VoiceRegistry) (gid : String), isConnectedInGuild reg gid = false) ∧
    regGet liveReg "g2" ≠ none ∧
    (∃ s, regGet liveReg "g2" = some s ∧ s.connection.destroyed = false) ∧
    isConnectedInGuild liveReg "g2" = false ∧
    isConnectedInGuildEarlier liveReg "g2" = true := by
  refine ⟨?_, by decide, ⟨_, rfl, rfl⟩, rfl, rfl⟩
  intro reg gid
  cases h : regGet reg gid <;> simp [isConnectedInGuild, h, destroyMethodTruthy]
